import Mathlib

/-!
Verification of the info-beamer hosted device runtime (`hosted/__init__.py`):
the `InfoBeamerQuery` control link, the `RPC` channel, and the `ProofOfPlay`
event log writer and submitter, shallowly embedded as executable Lean
definitions, together with theorems settling the specified properties.
-/

set_option autoImplicit false

/-- Sequence of characters, modelling a Python 2 `str` (one `Char` per byte). -/
abbrev Line := List Char

namespace InfoBeamerQuery

/-- Whitespace characters stripped by Python's `str.rstrip()` with no argument. -/
def isPySpace (c : Char) : Bool :=
  c == ' ' || c == '\t' || c == '\n' || c == '\r' || c == '\x0b' || c == '\x0c'

/-- Model of `line.rstrip()`: drop every trailing whitespace character. -/
def rstrip (s : Line) : Line :=
  (s.reverse.dropWhile isPySpace).reverse

/-- Model of Python 2 string `<` (lexicographic byte comparison). -/
def pyStrLt : Line → Line → Bool
  | [], [] => false
  | [], _ :: _ => true
  | _ :: _, [] => false
  | a :: as, b :: bs =>
    if a < b then true
    else if b < a then false
    else pyStrLt as bs

/-- Model of Python 2 string `<=`: the reflexive closure of the total order,
that is `a <= b` iff not `b < a`. Used by the version gate of `_send_cmd`. -/
def pyStrLe (a b : Line) : Bool :=
  !(pyStrLt b a)

/-- Model of `_parse_line`. The wire is the list of raw lines successive
`readline()` calls return, each normally ending in a newline; an exhausted
wire (or an explicit empty element) is an empty read, for which `readline`
returns the empty string and `_parse_line` returns `None`. Otherwise the raw
line is returned with `rstrip()` applied. -/
def parse_line (wire : List Line) : Option Line :=
  match wire with
  | [] => none
  | line :: _ => if line = [] then none else some (rstrip line)

/-- Loop of `_parse_multi_line`: `acc` holds the lines appended so far. An
empty read before the blank terminator returns `None`; a line that is blank
after `rstrip()` terminates the response, which is the accumulated lines
joined with a newline. -/
def parse_multi_line_aux (acc : List Line) : List Line → Option Line
  | [] => none
  | line :: rest =>
    if line = [] then none
    else
      let stripped := rstrip line
      if stripped = [] then some (List.intercalate ['\n'] acc)
      else parse_multi_line_aux (acc ++ [stripped]) rest

/-- Model of `_parse_multi_line`. -/
def parse_multi_line (wire : List Line) : Option Line :=
  parse_multi_line_aux [] wire

/-- Exception classes that can be raised inside the `try` block of
`_send_cmd` while writing the command or reading the response. -/
inductive PyExc
  | sockError
  | sockTimeout
  | otherExc
deriving DecidableEq, Repr

/-- Which exceptions the clause `except socket.error` catches. In Python 2.7
`socket.timeout` is a subclass of `socket.error`, so the clause catches
timeouts as well; `_send_cmd` lists this clause before its
`except socket.timeout` clause. -/
def socketErrorCatches : PyExc → Bool
  | .sockError => true
  | .sockTimeout => true
  | .otherExc => false

/-- Which exceptions the clause `except socket.timeout` catches. -/
def socketTimeoutCatches : PyExc → Bool
  | .sockTimeout => true
  | _ => false

/-- Environment behaviour of one write/flush/read attempt inside the `try`
block: either the socket I/O completes and `raw` is what `readline` yields
afterwards, or an exception is raised during the write, flush or read. -/
inductive Attempt
  | io (raw : List Line)
  | exc (e : PyExc)
deriving DecidableEq, Repr

/-- Result of one actual `_reconnect` attempt (one that found no live
connection): either connect and handshake succeed, negotiating `version`,
or they fail, in which case `_reconnect` resets the link and raises. -/
inductive Recon
  | ok (version : Line)
  | fail
deriving DecidableEq, Repr

/-- Errors `_send_cmd` can raise, all `InfoBeamerQueryException`s. -/
inductive QueryError
  | connect
  | unsupported
  | timeout
  | failed
deriving DecidableEq, Repr

/-- Connection state of the link: `some v` is an established connection whose
handshake negotiated version string `v`; `none` is disconnected. -/
structure LinkState where
  conn : Option Line
deriving DecidableEq, Repr

/-- Value or raised error of one `_send_cmd` call. -/
inductive Outcome
  | ok (response : Line)
  | err (e : QueryError)
deriving DecidableEq, Repr

/-- Observable result of a `_send_cmd` call: its outcome, the connection
state it leaves behind, the command lines it wrote to the socket, and how
many fresh connections it attempted. -/
structure SendResult where
  outcome : Outcome
  state : LinkState
  written : List Line
  reconnects : Nat
deriving DecidableEq, Repr

/-- Model of `_reconnect`: a no-op on a live connection; otherwise it consumes
the next reconnect result from the environment, either installing the fresh
connection or resetting and raising. Returns the negotiated version and the
new state on success, `none` when it raised, plus the updated count of
reconnect attempts. -/
def reconnect (recon : Nat → Recon) (st : LinkState) (rc : Nat) :
    Option (Line × LinkState) × Nat :=
  match st.conn with
  | some v => (some (v, st), rc)
  | none =>
    match recon rc with
    | .ok v => (some (v, ⟨some v⟩), rc + 1)
    | .fail => (none, rc + 1)

/-- What the body of one loop iteration does after `_reconnect` returned a
live connection. -/
inductive BodyOut
  | answer (response : Line)
  | raiseErr (e : QueryError) (didReset : Bool)
  | retry
deriving DecidableEq, Repr

/-- Model of one iteration body of `_send_cmd` on a live connection with
negotiated version `v`: the version gate (raising Unsupported, without any
reset, when `v <= min_version`), then the `try` block writing the command
and parsing the response. A `None` response (empty read) resets and
continues; an exception is dispatched to the `except` clauses in source
order: `except socket.error` (reset, continue) before `except socket.timeout`
(reset, raise), then `except Exception` (reset, continue). Also returns the
command lines written. -/
def send_body (min_version cmd : Line) (multiline : Bool) (att : Attempt)
    (v : Line) : BodyOut × List Line :=
  if pyStrLe v min_version then (.raiseErr .unsupported false, [])
  else
    match att with
    | .io raw =>
      match (if multiline then parse_multi_line raw else parse_line raw) with
      | none => (.retry, [cmd ++ ['\n']])
      | some response => (.answer response, [cmd ++ ['\n']])
    | .exc e =>
      if socketErrorCatches e then (.retry, [cmd ++ ['\n']])
      else if socketTimeoutCatches e then (.raiseErr .timeout true, [cmd ++ ['\n']])
      else (.retry, [cmd ++ ['\n']])

/-- Model of `_send_cmd`: the `for retry in (1, 2)` loop runs the reconnect,
version gate and I/O body at most twice; every `continue` path has reset the
connection first, and falling out of the loop raises "Failed to get a
response". `att i` is the environment behaviour of the i-th attempt and
`recon i` the result of the i-th fresh connection attempt. -/
def send_cmd (min_version cmd : Line) (multiline : Bool)
    (recon : Nat → Recon) (att : Nat → Attempt) (st0 : LinkState) :
    SendResult :=
  match reconnect recon st0 0 with
  | (none, rc1) => ⟨.err .connect, ⟨none⟩, [], rc1⟩
  | (some (v, st1), rc1) =>
    match send_body min_version cmd multiline (att 0) v with
    | (.answer r, w1) => ⟨.ok r, st1, w1, rc1⟩
    | (.raiseErr e true, w1) => ⟨.err e, ⟨none⟩, w1, rc1⟩
    | (.raiseErr e false, w1) => ⟨.err e, st1, w1, rc1⟩
    | (.retry, w1) =>
      match reconnect recon ⟨none⟩ rc1 with
      | (none, rc2) => ⟨.err .connect, ⟨none⟩, w1, rc2⟩
      | (some (v2, st2), rc2) =>
        match send_body min_version cmd multiline (att 1) v2 with
        | (.answer r, w2) => ⟨.ok r, st2, w1 ++ w2, rc2⟩
        | (.raiseErr e true, w2) => ⟨.err e, ⟨none⟩, w1 ++ w2, rc2⟩
        | (.raiseErr e false, w2) => ⟨.err e, st2, w1 ++ w2, rc2⟩
        | (.retry, w2) => ⟨.err .failed, ⟨none⟩, w1 ++ w2, rc2⟩

/-- Attempts that die with an empty read (the parse returns `None`, the peer
having closed the connection) or a `socket.error` raised during the I/O. -/
def attemptDies (multiline : Bool) : Attempt → Bool
  | .io raw => (if multiline then parse_multi_line raw else parse_line raw).isNone
  | .exc e => e == .sockError

/-- Lines carrying no trailing Python whitespace: their last character, if
any, is not stripped by `rstrip`. -/
def noTrailWS (s : Line) : Bool :=
  match s.reverse with
  | [] => true
  | c :: _ => !isPySpace c

/-- Modelled from the spec's words, for comparison with the code's framing:
the claimed single-line framing returns "the one line minus its trailing
newline", with no other alteration of the bytes. -/
def specSingleLine (raw : Line) : Line :=
  if raw.getLast? = some '\n' then raw.dropLast else raw

theorem send_body_of_dies (min_version cmd : Line) (multiline : Bool)
    (a : Attempt) (v : Line) (hg : pyStrLe v min_version = false)
    (h : attemptDies multiline a = true) :
    send_body min_version cmd multiline a v = (.retry, [cmd ++ ['\n']]) := by
  cases a with
  | io raw =>
    have hn : (if multiline then parse_multi_line raw else parse_line raw) = none := by
      simpa [attemptDies, Option.isNone_iff_eq_none] using h
    simp [send_body, hg, hn]
  | exc e =>
    have he : e = .sockError := by simpa [attemptDies] using h
    subst he
    simp [send_body, hg, socketErrorCatches]

theorem send_body_writes (min_version cmd : Line) (multiline : Bool)
    (a : Attempt) (v : Line) :
    (send_body min_version cmd multiline a v).2 = []
    ∨ (send_body min_version cmd multiline a v).2 = [cmd ++ ['\n']] := by
  unfold send_body
  split
  · exact Or.inl rfl
  · cases a with
    | io raw =>
      cases hp : (if multiline then parse_multi_line raw else parse_line raw) with
      | none => simp [hp]
      | some r => simp [hp]
    | exc e => cases e <;> simp [socketErrorCatches, socketTimeoutCatches]

theorem send_body_raise_no_reset (min_version cmd : Line) (multiline : Bool)
    (a : Attempt) (v : Line) (e : QueryError)
    (h : (send_body min_version cmd multiline a v).1 = .raiseErr e false) :
    e = .unsupported := by
  unfold send_body at h
  split at h
  · cases h; rfl
  · cases a with
    | io raw =>
      cases hp : (if multiline then parse_multi_line raw else parse_line raw) <;>
        simp [hp] at h
    | exc e2 =>
      cases e2 <;> simp [socketErrorCatches, socketTimeoutCatches] at h

theorem send_cmd_writes_le (min_version cmd : Line) (multiline : Bool)
    (recon : Nat → Recon) (att : Nat → Attempt) (st0 : LinkState) :
    (send_cmd min_version cmd multiline recon att st0).written.length ≤ 2 := by
  have hb : ∀ a v, (send_body min_version cmd multiline a v).2.length ≤ 1 := by
    intro a v
    rcases send_body_writes min_version cmd multiline a v with h | h <;> simp [h]
  unfold send_cmd
  generalize reconnect recon st0 0 = q0
  obtain ⟨o1, rc1⟩ := q0
  rcases o1 with _ | ⟨v, st1⟩
  · simp
  · dsimp only
    have hb1 := hb (att 0) v
    generalize hb0 : send_body min_version cmd multiline (att 0) v = p1
    rw [hb0] at hb1
    obtain ⟨b1, w1⟩ := p1
    simp only at hb1
    rcases b1 with r | ⟨e, dr⟩ | _
    · dsimp only; omega
    · cases dr <;> (dsimp only; omega)
    · dsimp only
      generalize reconnect recon ⟨none⟩ rc1 = q1
      obtain ⟨o2, rc2⟩ := q1
      rcases o2 with _ | ⟨v2, st2⟩
      · dsimp only; omega
      · dsimp only
        have hb2 := hb (att 1) v2
        generalize hb20 : send_body min_version cmd multiline (att 1) v2 = p2
        rw [hb20] at hb2
        obtain ⟨b2, w2⟩ := p2
        simp only at hb2
        rcases b2 with r | ⟨e, dr⟩ | _
        · dsimp only; simp only [List.length_append]; omega
        · cases dr <;> (dsimp only; simp only [List.length_append]; omega)
        · dsimp only; simp only [List.length_append]; omega

theorem send_cmd_error_resets (min_version cmd : Line) (multiline : Bool)
    (recon : Nat → Recon) (att : Nat → Attempt) (st0 : LinkState)
    (e : QueryError)
    (hout : (send_cmd min_version cmd multiline recon att st0).outcome = .err e)
    (hne : e ≠ .unsupported) :
    (send_cmd min_version cmd multiline recon att st0).state = ⟨none⟩ := by
  unfold send_cmd at hout ⊢
  generalize reconnect recon st0 0 = q0 at hout ⊢
  obtain ⟨o1, rc1⟩ := q0
  rcases o1 with _ | ⟨v, st1⟩
  · rfl
  · dsimp only at hout ⊢
    generalize hb0 : send_body min_version cmd multiline (att 0) v = p1 at hout ⊢
    obtain ⟨b1, w1⟩ := p1
    rcases b1 with r | ⟨e1, dr⟩ | _
    · dsimp only at hout; cases hout
    · cases dr
      · have he1 : e1 = .unsupported :=
          send_body_raise_no_reset min_version cmd multiline (att 0) v e1
            (by rw [hb0])
        dsimp only at hout
        cases hout
        exact absurd he1 hne
      · rfl
    · dsimp only at hout ⊢
      generalize reconnect recon ⟨none⟩ rc1 = q1 at hout ⊢
      obtain ⟨o2, rc2⟩ := q1
      rcases o2 with _ | ⟨v2, st2⟩
      · rfl
      · dsimp only at hout ⊢
        generalize hb20 : send_body min_version cmd multiline (att 1) v2 = p2 at hout ⊢
        obtain ⟨b2, w2⟩ := p2
        rcases b2 with r | ⟨e2, dr2⟩ | _
        · dsimp only at hout; cases hout
        · cases dr2
          · have he2 : e2 = .unsupported :=
              send_body_raise_no_reset min_version cmd multiline (att 1) v2 e2
                (by rw [hb20])
            dsimp only at hout
            cases hout
            exact absurd he2 hne
          · rfl
        · rfl

theorem rstrip_append_newline (s : Line) (h : noTrailWS s = true) :
    rstrip (s ++ ['\n']) = s := by
  unfold rstrip
  simp only [List.reverse_append, List.reverse_cons, List.reverse_nil,
    List.nil_append, List.singleton_append]
  have h1 : List.dropWhile isPySpace ('\n' :: s.reverse)
      = List.dropWhile isPySpace s.reverse := by
    simp [List.dropWhile, isPySpace]
  have h2 : List.dropWhile isPySpace s.reverse = s.reverse := by
    unfold noTrailWS at h
    cases hr : s.reverse with
    | nil => simp
    | cons c t =>
      rw [hr] at h
      simp only [Bool.not_eq_true'] at h
      simp [List.dropWhile, h]
  rw [h1, h2, List.reverse_reverse]

theorem parse_multi_line_aux_clean (rest : List Line) :
    ∀ (contents : List Line) (acc : List Line),
      (∀ c ∈ contents, noTrailWS c = true ∧ c ≠ []) →
      parse_multi_line_aux acc (contents.map (fun c => c ++ ['\n']) ++ ['\n'] :: rest)
        = some (List.intercalate ['\n'] (acc ++ contents)) := by
  intro contents
  induction contents with
  | nil =>
    intro acc _
    simp [parse_multi_line_aux, rstrip, isPySpace]
  | cons c cs ih =>
    intro acc hclean
    obtain ⟨hws, hne⟩ := hclean c (by simp)
    have hstep : parse_multi_line_aux acc
        ((c ++ ['\n']) :: (cs.map (fun c => c ++ ['\n']) ++ ['\n'] :: rest))
        = parse_multi_line_aux (acc ++ [c]) (cs.map (fun c => c ++ ['\n']) ++ ['\n'] :: rest) := by
      have hnn : ¬ c ++ ['\n'] = [] := by simp
      have hr : rstrip (c ++ ['\n']) = c := rstrip_append_newline c hws
      simp only [parse_multi_line_aux, if_neg hnn, hr, if_neg hne]
    simp only [List.map_cons, List.cons_append, hstep]
    rw [ih (acc ++ [c]) (fun x hx => hclean x (by simp [hx]))]
    congr 1
    simp

theorem parse_multi_line_clean (contents rest : List Line)
    (h : ∀ c ∈ contents, noTrailWS c = true ∧ c ≠ []) :
    parse_multi_line (contents.map (fun c => c ++ ['\n']) ++ ['\n'] :: rest)
      = some (List.intercalate ['\n'] contents) := by
  unfold parse_multi_line
  simpa using parse_multi_line_aux_clean rest contents [] h

theorem parse_line_clean (s : Line) (rest : List Line)
    (h : noTrailWS s = true) :
    parse_line ((s ++ ['\n']) :: rest) = some s := by
  have hnn : ¬ s ++ ['\n'] = [] := by simp
  simp [parse_line, hnn, rstrip_append_newline s h]

end InfoBeamerQuery

namespace Py

/-- JSON values appearing in the runtime's messages: strings and integers
(an `asset_id` of `None` is replaced by `0` before encoding). -/
inductive JVal
  | jstr (s : Line)
  | jint (n : Int)
deriving DecidableEq, Repr

/-- Lowercase hexadecimal digit for a value below 16. -/
def hexDigit (n : Nat) : Char :=
  if n < 10 then Char.ofNat ('0'.toNat + n)
  else Char.ofNat ('a'.toNat + (n - 10))

/-- Escaping of one character by `json.dumps` with `ensure_ascii=False`:
quote and backslash are escaped, control characters use their short escapes
or a `\u00XX` sequence, everything else passes through unchanged. -/
def jsonEscapeChar (c : Char) : Line :=
  if c = '"' then ['\\', '"']
  else if c = '\\' then ['\\', '\\']
  else if c = '\n' then ['\\', 'n']
  else if c = '\r' then ['\\', 'r']
  else if c = '\t' then ['\\', 't']
  else if c = '\x08' then ['\\', 'b']
  else if c = '\x0c' then ['\\', 'f']
  else if c.toNat < 32 then
    ['\\', 'u', '0', '0', hexDigit (c.toNat / 16), hexDigit (c.toNat % 16)]
  else [c]

/-- JSON encoding of a string value. -/
def jsonStr (s : Line) : Line :=
  '"' :: (s.map jsonEscapeChar).flatten ++ ['"']

/-- Decimal encoding of an integer value. -/
def intEncode (n : Int) : Line :=
  if n < 0 then '-' :: Nat.toDigits 10 (-n).toNat else Nat.toDigits 10 n.toNat

/-- JSON encoding of one value. -/
def jsonEncode : JVal → Line
  | .jstr s => jsonStr s
  | .jint n => intEncode n

/-- Model of `json.dumps` on a list with `separators=(',', ':')` and
`ensure_ascii=False`. -/
def jsonDumpsArray (vs : List JVal) : Line :=
  '[' :: List.intercalate [','] (vs.map jsonEncode) ++ [']']

end Py

namespace RPC

/-- Python value returned by `RPC._send`: `None` (fell off the end of the
function), `False` or `True`. -/
inductive PyRet
  | pyNone
  | pyFalse
  | pyTrue
deriving DecidableEq, Repr

/-- Model of `_get_connection`: keep a live stream; otherwise try to open a
fresh one, which leaves the channel disconnected when the open raises
`InfoBeamerQueryException`. `con` is whether `self._con` is live and
`openOk` whether opening the node's rpc stream would succeed. -/
def get_connection (con openOk : Bool) : Bool :=
  if con then true else openOk

/-- Model of `RPC._send`: take the connection (opening one if needed); with
no connection available fall off the end returning `None`; otherwise write
the newline-terminated line and flush, returning `True`, or, when the write
raises, close the connection and return `False`. Returns the Python value
and the final connection state; the line's bytes do not influence control
flow. -/
def send (line : Line) (con openOk writeOk : Bool) : PyRet × Bool :=
  let _ := line
  if get_connection con openOk then
    if writeOk then (.pyTrue, true) else (.pyFalse, false)
  else (.pyNone, false)

/-- Model of the dynamic method wrapper `__getattr__`/`call`: JSON-encode
`[method, args...]` with compact separators and `ensure_ascii=False`,
UTF-8 encode and delegate to `_send`. -/
def call (con openOk writeOk : Bool) (method : Line) (args : List Py.JVal) :
    PyRet × Bool :=
  send (Py.jsonDumpsArray (Py.JVal.jstr method :: args)) con openOk writeOk

end RPC

namespace ProofOfPlay

/-- Model of `get_random_bytes`: `getrandom(2)` fills a buffer and returns a
byte count; when the count differs from `num_bytes` an `OSError` is raised,
otherwise the first `num_bytes` bytes of the buffer are returned. -/
def get_random_bytes (num_bytes : Nat) (sysResult : Nat) (sysBuf : List Nat) :
    Except Unit (List Nat) :=
  if sysResult ≠ num_bytes then .error () else .ok (sysBuf.take num_bytes)

/-- Model of `str.encode('hex')`: two lowercase hex digits per byte. -/
def encodeHex (bs : List Nat) : Line :=
  (bs.map (fun b => [Py.hexDigit (b % 256 / 16), Py.hexDigit (b % 16)])).flatten

/-- Model of the format `"%08x" % time.time()`: lowercase hexadecimal,
zero-padded on the left to at least eight digits. -/
def fmtHex08 (t : Nat) : Line :=
  let ds := Nat.toDigits 16 t
  List.replicate (8 - ds.length) '0' ++ ds

/-- JSON line written for one proof-of-play entry:
`[uuid, play_start, duration, asset_id or 0, asset_filename]`. -/
def logLine (uuid : Line) (play_start duration : Int) (asset_id : Option Int)
    (asset_filename : Line) : Line :=
  Py.jsonDumpsArray [.jstr uuid, .jint play_start, .jint duration,
    .jint (match asset_id with | none => 0 | some i => i),
    .jstr asset_filename]

/-- Model of `ProofOfPlay.log`: build the uuid from the current time and 12
random bytes, JSON-encode the entry and put it on `self._q`. The queue is
unbounded (`Queue.Queue()` with no maxsize), so `put` is a plain append and
never blocks; the only fallible step is the `getrandom` call, whose
behaviour the environment supplies as `sysResult`/`sysBuf`. -/
def log (q : List Line) (now : Nat) (sysResult : Nat) (sysBuf : List Nat)
    (play_start duration : Int) (asset_id : Option Int)
    (asset_filename : Line) : Except Unit (List Line) :=
  match get_random_bytes 12 sysResult sysBuf with
  | .error e => .error e
  | .ok bs =>
    let uuid := fmtHex08 now ++ encodeHex bs
    .ok (q ++ [logLine uuid play_start duration asset_id asset_filename])

/-- State of the writer thread: the rotated segments in rotation order (each
a list of log lines in write order), the lines of the active `current.log`,
the `lines` counter, the rotation deadline `submit` (monotonic seconds), and
a generation number incremented each time `reopen_log` opens a fresh active
file (so two states with equal generation share the same open file). -/
structure WriterState where
  segments : List (List Line)
  active : List Line
  lines : Nat
  deadline : Nat
  generation : Nat
deriving DecidableEq, Repr

/-- Model of `reopen_log`: close the active file, rename it into a uniquely
named `submit-` segment (during the loop it always exists, having been
opened before), and open a fresh empty active file. The caller resets the
line counter and deadline. -/
def reopen_log (st : WriterState) : WriterState :=
  { st with
    segments := st.segments ++ [st.active],
    active := [],
    generation := st.generation + 1 }

/-- Events one iteration of the writer loop can observe: `self._q.get`
returns the next log line before the deadline, or times out raising
`Queue.Empty`. The write, flush and fsync of a dequeued line are assumed to
succeed (their failure is swallowed by the loop's `except Exception`). -/
inductive WriterEvent
  | entry (l : Line)
  | timeout
deriving DecidableEq, Repr

/-- Model of one iteration of `_writer_thread`'s loop: on a dequeued line,
append it to the active file and bump the counter; on `Queue.Empty` with
zero lines written since the last rotation, push the deadline forward by
`max_delay`, otherwise mark for rotation; independently mark for rotation
when the counter has reached `max_lines`; finally rotate when marked, with
the deadline restarted from `now` (the iteration's `monotonic_time()`). -/
def writer_step (max_delay max_lines : Nat) (now : Nat) (st : WriterState)
    (ev : WriterEvent) : WriterState :=
  let (st1, reopen1) :=
    match ev with
    | .entry l =>
      ({ st with active := st.active ++ [l], lines := st.lines + 1 }, false)
    | .timeout =>
      if st.lines = 0 then ({ st with deadline := st.deadline + max_delay }, false)
      else (st, true)
  let reopen2 := reopen1 || decide (st1.lines ≥ max_lines)
  if reopen2 then
    { reopen_log st1 with lines := 0, deadline := now + max_delay }
  else st1

/-- Model of the writer thread startup, just after its initial `reopen_log`:
`leftover` is the content of a `current.log` left by an unclean shutdown,
rotated into a segment before any entry is accepted; `none` when no such
file existed. -/
def writer_init (max_delay now : Nat) (leftover : Option (List Line)) :
    WriterState :=
  { segments := match leftover with | none => [] | some c => [c]
    active := []
    lines := 0
    deadline := now + max_delay
    generation := 0 }

/-- Run of the writer loop over a sequence of events, each tagged with the
monotonic time of its iteration. -/
def writer_run (max_delay max_lines : Nat) (st : WriterState)
    (evs : List (Nat × WriterEvent)) : WriterState :=
  evs.foldl (fun s p => writer_step max_delay max_lines p.1 s p.2) st

/-- One file of the pop spool directory: name and size in bytes. -/
structure SpoolFile where
  name : Line
  size : Nat
deriving DecidableEq, Repr

/-- Name pattern of a ready segment: `fname.startswith('submit-')`. -/
def isReady (f : SpoolFile) : Bool :=
  List.isPrefixOf ("submit-".toList) f.name

/-- Result of one `_submit` call: the collector's parsed response (its
`disabled` flag), or a raised `APIError` — `APIProxy.post` wraps every
network, HTTP-status and body-parse failure into `APIError`. -/
inductive SubmitRes
  | ok (disabled : Bool)
  | apiError
deriving DecidableEq, Repr

/-- Model of the `for fname in files` loop of `_submit_thread` over the
gathered ready files: a zero-size file is unlinked and the loop continues; a
non-empty file is submitted, and the loop breaks either keeping the file and
requesting the error delay (on `APIError`) or unlinking it (on success,
disabled or not). Returns the unlinked names, the submitted names and
whether the error delay was requested. -/
def submit_loop (env : Line → Nat → SubmitRes) (queue_size : Nat) :
    List SpoolFile → List Line × List Line × Bool
  | [] => ([], [], false)
  | f :: rest =>
    if f.size = 0 then
      let (del, ups, errd) := submit_loop env queue_size rest
      (f.name :: del, ups, errd)
    else
      match env f.name queue_size with
      | .apiError => ([], [f.name], true)
      | .ok _disabled => ([f.name], [f.name], false)

/-- Observable result of one submitter cycle: the directory afterwards, the
delay slept before the next scan, and the names submitted over the network. -/
structure CycleResult where
  disk : List SpoolFile
  delay : Nat
  uploads : List Line
deriving DecidableEq, Repr

/-- Model of one cycle of `_submit_thread`: start with the configured
minimum delay, gather the `submit-` files, run the loop (which unlinks,
submits and may request the error delay), and when no ready file was found
use the 10 second idle delay. -/
def submit_cycle (min_delay error_delay : Nat) (env : Line → Nat → SubmitRes)
    (disk : List SpoolFile) : CycleResult :=
  let files := disk.filter isReady
  let (deleted, uploads, errd) := submit_loop env files.length files
  { disk := disk.filter (fun f => !(deleted.contains f.name))
    delay := if errd then error_delay else if files = [] then 10 else min_delay
    uploads := uploads }

end ProofOfPlay

open InfoBeamerQuery in
/-- C1: `ProofOfPlay.log`, for every argument value, generates an id of the
form `"%08x" % time ++ hex(12 random bytes)`, appends exactly the one new
entry at the tail of the unbounded queue — so the enqueue is unconditional,
preserves every earlier entry and never blocks — and never raises, given
that the `getrandom` syscall delivers the 12 requested bytes (the only
fallible step of the function). -/
theorem pop_log_enqueues_and_never_raises (q : List Line) (now : Nat)
    (sysResult : Nat) (sysBuf : List Nat) (play_start duration : Int)
    (asset_id : Option Int) (asset_filename : Line)
    (hsys : sysResult = 12) :
    ProofOfPlay.log q now sysResult sysBuf play_start duration asset_id
        asset_filename
      = .ok (q ++ [ProofOfPlay.logLine
          (ProofOfPlay.fmtHex08 now ++ ProofOfPlay.encodeHex (sysBuf.take 12))
          play_start duration asset_id asset_filename]) := by
  subst hsys
  simp [ProofOfPlay.log, ProofOfPlay.get_random_bytes]

/-- Witness for C1 at a concrete input. -/
theorem pop_log_enqueues_and_never_raises_witness :
    ProofOfPlay.log [] 1700000000 12 [0, 1, 2, 3, 4, 5, 6, 7, 8, 9, 10, 11]
        1700000100 30 none ("video.mp4".toList)
      = .ok [ProofOfPlay.logLine
          (ProofOfPlay.fmtHex08 1700000000
            ++ ProofOfPlay.encodeHex [0, 1, 2, 3, 4, 5, 6, 7, 8, 9, 10, 11])
          1700000100 30 none ("video.mp4".toList)] :=
  pop_log_enqueues_and_never_raises [] 1700000000 12
    [0, 1, 2, 3, 4, 5, 6, 7, 8, 9, 10, 11] 1700000100 30 none
    ("video.mp4".toList) rfl

open InfoBeamerQuery in
/-- C2: evaluation of `_send_cmd` at the failing input — the first attempt's
read raises `socket.timeout`. Because `socket.timeout` is a subclass of
`socket.error` in Python 2.7 and the clause `except socket.error` is listed
first, the timeout is handled as an ordinary socket error: the connection is
reset and a second attempt is performed (which here succeeds), instead of
the immediate Timeout failure with no second attempt that the claim states;
the `except socket.timeout` clause of `_send_cmd` is unreachable. -/
theorem sendcmd_timeout_retries_instead_of_failing :
    send_cmd ("0.6".toList) ("*query/*ping".toList) false
        (fun _ => .ok ("1.0".toList))
        (fun i => if i = 0 then .exc .sockTimeout else .io [("pong\n".toList)])
        ⟨some ("1.0".toList)⟩
      = ⟨.ok ("pong".toList), ⟨some ("1.0".toList)⟩,
         [("*query/*ping\n".toList), ("*query/*ping\n".toList)], 1⟩ := by
  decide

open InfoBeamerQuery in
/-- C4: the version gate of `_send_cmd`: when the negotiated version does not
exceed the command's declared minimum (Python string comparison
`self._version <= min_version`), the call fails immediately with the
Unsupported error and writes zero command bytes to the socket — both when
the connection already existed and when the handshake just negotiated the
version. -/
theorem sendcmd_version_gate_no_write (min_version cmd v : Line)
    (multiline : Bool) (recon : Nat → Recon) (att : Nat → Attempt)
    (h : pyStrLe v min_version = true) :
    send_cmd min_version cmd multiline recon att ⟨some v⟩
      = ⟨.err .unsupported, ⟨some v⟩, [], 0⟩
    ∧ (∀ recon2 : Nat → Recon, recon2 0 = .ok v →
        send_cmd min_version cmd multiline recon2 att ⟨none⟩
          = ⟨.err .unsupported, ⟨some v⟩, [], 1⟩) := by
  constructor
  · simp [send_cmd, reconnect, send_body, h]
  · intro recon2 h2
    simp [send_cmd, reconnect, send_body, h, h2]

open InfoBeamerQuery in
/-- Witness for C4: the spec's scenario — peer version "0.9", command
minimum "1.0" — fails with Unsupported and no bytes written. -/
theorem sendcmd_version_gate_no_write_witness :
    send_cmd ("1.0".toList) ("status".toList) false (fun _ => .fail)
        (fun _ => .io []) ⟨some ("0.9".toList)⟩
      = ⟨.err .unsupported, ⟨some ("0.9".toList)⟩, [], 0⟩ :=
  (sendcmd_version_gate_no_write ("1.0".toList) ("status".toList) ("0.9".toList)
    false (fun _ => .fail) (fun _ => .io []) (by decide)).1

/-- C7: an outbound RPC call on a disconnected channel that cannot reopen its
stream returns the Python value `None` — a falsy value distinct from the
success value `True`, returned normally rather than raised — and leaves the
channel disconnected; when a stream is live or freshly opened and the write
succeeds, the call returns `True`. -/
theorem rpc_call_disconnected_returns_failure (method : Line)
    (args : List Py.JVal) (writeOk : Bool) :
    RPC.call false false writeOk method args = (.pyNone, false)
    ∧ RPC.PyRet.pyNone ≠ RPC.PyRet.pyTrue
    ∧ (∀ con openOk : Bool, RPC.get_connection con openOk = true →
        RPC.call con openOk true method args = (.pyTrue, true)) := by
  refine ⟨rfl, by decide, ?_⟩
  intro con openOk h
  simp [RPC.call, RPC.send, h]

/-- Witness for C7 at a concrete input: a failed call while disconnected,
then a successful call after the stream is re-established. -/
theorem rpc_call_disconnected_returns_failure_witness :
    RPC.call false false true ("trigger".toList) [] = (.pyNone, false)
    ∧ RPC.get_connection false true = true
    ∧ RPC.call false true true ("trigger".toList) [] = (.pyTrue, true) :=
  ⟨(rpc_call_disconnected_returns_failure ("trigger".toList) [] true).1,
   by decide,
   (rpc_call_disconnected_returns_failure ("trigger".toList) [] true).2.2
     false true (by decide)⟩

/-- C9: on a wait timeout with zero lines written since the last rotation,
the writer pushes the rotation deadline forward by exactly `max_delay` and
changes nothing else: no rotation happens, the segments, the active file's
(empty) content and the generation of the open file handle are unchanged, so
an idle active file is never rotated while empty. -/
theorem writer_idle_timeout_extends_deadline (max_delay max_lines now : Nat)
    (st : ProofOfPlay.WriterState) (hK : 1 ≤ max_lines) (h0 : st.lines = 0) :
    ProofOfPlay.writer_step max_delay max_lines now st .timeout
      = { st with deadline := st.deadline + max_delay } := by
  have hne : max_lines ≠ 0 := by omega
  simp [ProofOfPlay.writer_step, h0, hne]

/-- Witness for C9 at a concrete input: an empty active file at deadline 60
with `max_delay = 60` stays open, deadline pushed to 120. -/
theorem writer_idle_timeout_extends_deadline_witness :
    1 ≤ 3
    ∧ ProofOfPlay.writer_step 60 3 59 ⟨[], [], 0, 60, 0⟩ .timeout
        = ⟨[], [], 0, 60 + 60, 0⟩ :=
  ⟨by decide,
   writer_idle_timeout_extends_deadline 60 3 59 ⟨[], [], 0, 60, 0⟩
     (by decide) rfl⟩

open InfoBeamerQuery in
/-- C6: an empty read (peer closed) or a socket error during the first
attempt of `_send_cmd` discards the connection and triggers exactly one
reconnect-and-resend: when the second attempt succeeds its response is
returned after exactly two command writes and one reconnect; when the second
attempt also dies with an empty read or socket error, the call raises the
Communication error ("Failed to get a response"); and no call ever performs
more than two command writes. -/
theorem sendcmd_empty_read_one_retry (min_version cmd v v2 : Line)
    (multiline : Bool) (a1 a2 : Attempt) (recon : Nat → Recon)
    (hg1 : pyStrLe v min_version = false)
    (hg2 : pyStrLe v2 min_version = false)
    (hrecon : recon 0 = .ok v2)
    (h1 : attemptDies multiline a1 = true) :
    (∀ (raw : List Line) (r : Line), a2 = .io raw →
        (if multiline then parse_multi_line raw else parse_line raw) = some r →
        send_cmd min_version cmd multiline recon
            (fun i => if i = 0 then a1 else a2) ⟨some v⟩
          = ⟨.ok r, ⟨some v2⟩, [cmd ++ ['\n'], cmd ++ ['\n']], 1⟩)
    ∧ (attemptDies multiline a2 = true →
        send_cmd min_version cmd multiline recon
            (fun i => if i = 0 then a1 else a2) ⟨some v⟩
          = ⟨.err .failed, ⟨none⟩, [cmd ++ ['\n'], cmd ++ ['\n']], 1⟩)
    ∧ (∀ (st : LinkState) (recon3 : Nat → Recon) (att : Nat → Attempt),
        (send_cmd min_version cmd multiline recon3 att st).written.length ≤ 2) := by
  have e1 : send_body min_version cmd multiline a1 v = (.retry, [cmd ++ ['\n']]) :=
    send_body_of_dies min_version cmd multiline a1 v hg1 h1
  refine ⟨?_, ?_, ?_⟩
  · intro raw r ha2 hparse
    subst ha2
    have e2 : send_body min_version cmd multiline (.io raw) v2
        = (.answer r, [cmd ++ ['\n']]) := by
      simp [send_body, hg2, hparse]
    simp [send_cmd, reconnect, hrecon, e1, e2]
  · intro h2
    have e2 : send_body min_version cmd multiline a2 v2 = (.retry, [cmd ++ ['\n']]) :=
      send_body_of_dies min_version cmd multiline a2 v2 hg2 h2
    simp [send_cmd, reconnect, hrecon, e1, e2]
  · intro st recon3 att
    exact send_cmd_writes_le min_version cmd multiline recon3 att st

open InfoBeamerQuery in
/-- Witness for C6: peer version "1.0", command minimum "0.6"; the peer
closes the connection on the first attempt (empty read) and answers "pong"
after the reconnect. -/
theorem sendcmd_empty_read_one_retry_witness :
    send_cmd ("0.6".toList) ("*query/*ping".toList) false (fun _ => .ok ("1.0".toList))
        (fun i => if i = 0 then Attempt.io [] else Attempt.io [("pong\n".toList)])
        ⟨some ("1.0".toList)⟩
      = ⟨.ok ("pong".toList), ⟨some ("1.0".toList)⟩,
         [("*query/*ping\n".toList), ("*query/*ping\n".toList)], 1⟩ :=
  (sendcmd_empty_read_one_retry ("0.6".toList) ("*query/*ping".toList)
      ("1.0".toList) ("1.0".toList) false (.io []) (.io [("pong\n".toList)])
      (fun _ => .ok ("1.0".toList)) (by decide) (by decide) rfl (by decide)).1
    [("pong\n".toList)] ("pong".toList) rfl (by decide)

open InfoBeamerQuery in
/-- C10: the Unsupported (version gate) failure of `_send_cmd` is the one
failure that leaves the connection state unchanged: the established
connection is retained, and a following command on the same link whose
minimum version is satisfied reuses it — succeeding with zero reconnects —
while every other failure outcome leaves the link reset to disconnected. -/
theorem sendcmd_unsupported_keeps_connection (min_version cmd v : Line)
    (multiline : Bool) (recon : Nat → Recon) (att : Nat → Attempt)
    (hg : pyStrLe v min_version = true) :
    send_cmd min_version cmd multiline recon att ⟨some v⟩
      = ⟨.err .unsupported, ⟨some v⟩, [], 0⟩
    ∧ (∀ (min2 cmd2 : Line) (recon2 : Nat → Recon) (raw : List Line) (r : Line),
        pyStrLe v min2 = false → parse_line raw = some r →
        send_cmd min2 cmd2 false recon2 (fun _ => .io raw)
            (send_cmd min_version cmd multiline recon att ⟨some v⟩).state
          = ⟨.ok r, ⟨some v⟩, [cmd2 ++ ['\n']], 0⟩)
    ∧ (∀ (st : LinkState) (m c : Line) (ml : Bool) (rc : Nat → Recon)
        (att2 : Nat → Attempt) (e : QueryError),
        (send_cmd m c ml rc att2 st).outcome = .err e → e ≠ .unsupported →
        (send_cmd m c ml rc att2 st).state = ⟨none⟩) := by
  have hfirst : send_cmd min_version cmd multiline recon att ⟨some v⟩
      = ⟨.err .unsupported, ⟨some v⟩, [], 0⟩ := by
    simp [send_cmd, reconnect, send_body, hg]
  refine ⟨hfirst, ?_, ?_⟩
  · intro min2 cmd2 recon2 raw r hg2 hparse
    rw [hfirst]
    simp [send_cmd, reconnect, send_body, hg2, hparse]
  · intro st m c ml rc att2 e hout hne
    exact send_cmd_error_resets m c ml rc att2 st e hout hne

open InfoBeamerQuery in
/-- Witness for C10: a command requiring "1.5" on a link at version "1.0"
fails Unsupported keeping the connection; a following command requiring
"0.6" succeeds on the same connection with zero reconnects. -/
theorem sendcmd_unsupported_keeps_connection_witness :
    send_cmd ("1.5".toList) ("*query/*new".toList) false (fun _ => .fail)
        (fun _ => .io []) ⟨some ("1.0".toList)⟩
      = ⟨.err .unsupported, ⟨some ("1.0".toList)⟩, [], 0⟩
    ∧ send_cmd ("0.6".toList) ("*query/*ping".toList) false (fun _ => .fail)
        (fun _ => .io [("pong\n".toList)])
        (send_cmd ("1.5".toList) ("*query/*new".toList) false (fun _ => .fail)
          (fun _ => .io []) ⟨some ("1.0".toList)⟩).state
      = ⟨.ok ("pong".toList), ⟨some ("1.0".toList)⟩, [("*query/*ping\n".toList)], 0⟩ :=
  ⟨(sendcmd_unsupported_keeps_connection ("1.5".toList) ("*query/*new".toList)
      ("1.0".toList) false (fun _ => .fail) (fun _ => .io []) (by decide)).1,
   (sendcmd_unsupported_keeps_connection ("1.5".toList) ("*query/*new".toList)
      ("1.0".toList) false (fun _ => .fail) (fun _ => .io []) (by decide)).2.1
     ("0.6".toList) ("*query/*ping".toList) (fun _ => .fail)
     [("pong\n".toList)] ("pong".toList) (by decide) (by decide)⟩

open InfoBeamerQuery in
/-- C3, counterexample: the exchange is not byte-for-byte. The peer's
single-line response "ok \n" — whose content minus the trailing newline is
"ok " — is returned by a successful `_send_cmd` exchange as "ok": `rstrip()`
also removes the trailing space, altering the bytes. -/
theorem sendcmd_response_not_byte_exact :
    (send_cmd ("0.6".toList) ("*query/*version".toList) false (fun _ => .fail)
        (fun _ => .io [("ok \n".toList)]) ⟨some ("1.0".toList)⟩).outcome
      = .ok ("ok".toList)
    ∧ specSingleLine ("ok \n".toList) = ("ok ".toList)
    ∧ ("ok".toList) ≠ ("ok ".toList) := by
  decide

open InfoBeamerQuery in
/-- C3, amended: a successful exchange returns the peer's response with each
line's trailing whitespace stripped — hence byte-for-byte exactly when no
response line carries trailing whitespace before its newline: a single-line
response `s ++ "\n"` is returned as exactly `s`, and a multi-line response
of nonblank lines followed by the blank terminator is returned as exactly
the lines joined with newlines. -/
theorem sendcmd_returns_response_exactly_when_clean (min_version cmd v : Line)
    (recon : Nat → Recon)
    (hg : pyStrLe v min_version = false) :
    (∀ (s : Line) (rest : List Line), noTrailWS s = true →
        send_cmd min_version cmd false recon
            (fun _ => .io ((s ++ ['\n']) :: rest)) ⟨some v⟩
          = ⟨.ok s, ⟨some v⟩, [cmd ++ ['\n']], 0⟩)
    ∧ (∀ (contents : List Line) (rest : List Line),
        (∀ c ∈ contents, noTrailWS c = true ∧ c ≠ []) →
        send_cmd min_version cmd true recon
            (fun _ => .io (contents.map (fun c => c ++ ['\n']) ++ ['\n'] :: rest))
            ⟨some v⟩
          = ⟨.ok (List.intercalate ['\n'] contents), ⟨some v⟩,
             [cmd ++ ['\n']], 0⟩) := by
  constructor
  · intro s rest hs
    simp [send_cmd, reconnect, send_body, hg, parse_line_clean s rest hs]
  · intro contents rest hc
    simp [send_cmd, reconnect, send_body, hg,
      parse_multi_line_clean contents rest hc]

open InfoBeamerQuery in
/-- Witness for the amended C3: a clean single-line response "pong" and a
clean two-line response "a"/"bc" are returned byte-for-byte. -/
theorem sendcmd_returns_response_exactly_when_clean_witness :
    send_cmd ("0.6".toList) ("*query/*ping".toList) false (fun _ => .fail)
        (fun _ => .io [("pong\n".toList)]) ⟨some ("1.0".toList)⟩
      = ⟨.ok ("pong".toList), ⟨some ("1.0".toList)⟩, [("*query/*ping\n".toList)], 0⟩
    ∧ send_cmd ("0.6".toList) ("*query/*config".toList) true (fun _ => .fail)
        (fun _ => .io [("a\n".toList), ("bc\n".toList), ("\n".toList)])
        ⟨some ("1.0".toList)⟩
      = ⟨.ok ("a\nbc".toList), ⟨some ("1.0".toList)⟩, [("*query/*config\n".toList)], 0⟩ :=
  ⟨(sendcmd_returns_response_exactly_when_clean ("0.6".toList)
      ("*query/*ping".toList) ("1.0".toList) (fun _ => .fail) (by decide)).1
     ("pong".toList) [] (by decide),
   by
    have h := (sendcmd_returns_response_exactly_when_clean ("0.6".toList)
      ("*query/*config".toList) ("1.0".toList) (fun _ => .fail) (by decide)).2
      [("a".toList), ("bc".toList)] [] (by decide)
    simpa using h⟩

theorem writer_step_entry_no_rotate (md K t : Nat)
    (st : ProofOfPlay.WriterState) (l : Line) (h : ¬ st.lines + 1 ≥ K) :
    ProofOfPlay.writer_step md K t st (.entry l)
      = { st with active := st.active ++ [l], lines := st.lines + 1 } := by
  simp [ProofOfPlay.writer_step, h]

theorem writer_step_entry_rotate (md K t : Nat)
    (st : ProofOfPlay.WriterState) (l : Line) (h : st.lines + 1 ≥ K) :
    ProofOfPlay.writer_step md K t st (.entry l)
      = ⟨st.segments ++ [st.active ++ [l]], [], 0, t + md, st.generation + 1⟩ := by
  simp [ProofOfPlay.writer_step, ProofOfPlay.reopen_log, h]

theorem writer_entry_run_invariant (K md : Nat) (hK : 1 ≤ K) :
    ∀ (evs : List (Nat × Line)) (st : ProofOfPlay.WriterState),
      st.lines = st.active.length → st.active.length < K →
      ∃ extra,
        (ProofOfPlay.writer_run md K st
            (evs.map (fun p => (p.1, ProofOfPlay.WriterEvent.entry p.2)))).segments
          = st.segments ++ extra
        ∧ (∀ s ∈ extra, s.length = K)
        ∧ extra.length = (st.active.length + evs.length) / K
        ∧ extra.flatten
            ++ (ProofOfPlay.writer_run md K st
                (evs.map (fun p => (p.1, ProofOfPlay.WriterEvent.entry p.2)))).active
          = st.active ++ evs.map Prod.snd
        ∧ (ProofOfPlay.writer_run md K st
            (evs.map (fun p => (p.1, ProofOfPlay.WriterEvent.entry p.2)))).active.length
          = (st.active.length + evs.length) % K
        ∧ (ProofOfPlay.writer_run md K st
            (evs.map (fun p => (p.1, ProofOfPlay.WriterEvent.entry p.2)))).lines
          = (ProofOfPlay.writer_run md K st
              (evs.map (fun p => (p.1, ProofOfPlay.WriterEvent.entry p.2)))).active.length := by
  intro evs
  induction evs with
  | nil =>
    intro st h1 h2
    refine ⟨[], by simp [ProofOfPlay.writer_run], by simp, ?_, ?_, ?_, ?_⟩
    · simp [Nat.div_eq_of_lt h2]
    · simp [ProofOfPlay.writer_run]
    · simp [ProofOfPlay.writer_run, Nat.mod_eq_of_lt h2]
    · simp [ProofOfPlay.writer_run, h1]
  | cons p tl ih =>
    intro st h1 h2
    obtain ⟨t, l⟩ := p
    have hrun : ProofOfPlay.writer_run md K st
        (((t, l) :: tl).map (fun p => (p.1, ProofOfPlay.WriterEvent.entry p.2)))
        = ProofOfPlay.writer_run md K
            (ProofOfPlay.writer_step md K t st (.entry l))
            (tl.map (fun p => (p.1, ProofOfPlay.WriterEvent.entry p.2))) := rfl
    by_cases hfull : st.lines + 1 ≥ K
    · -- the new line fills the segment: rotation
      have hK1 : st.active.length + 1 = K := by omega
      rw [hrun, writer_step_entry_rotate md K t st l hfull]
      obtain ⟨extra, hseg, hall, hlen, hflat, hmod, hlines⟩ :=
        ih ⟨st.segments ++ [st.active ++ [l]], [], 0, t + md, st.generation + 1⟩
          rfl (by simp; omega)
      refine ⟨(st.active ++ [l]) :: extra, ?_, ?_, ?_, ?_, ?_, hlines⟩
      · rw [hseg]; simp
      · intro s hs
        rcases List.mem_cons.mp hs with h | h
        · subst h; simpa using hK1
        · exact hall s h
      · have harith : st.active.length + ((t, l) :: tl).length = tl.length + K := by
          simp only [List.length_cons]; omega
        rw [harith, Nat.add_div_right _ (by omega)]
        simp only [List.length_cons, hlen]
        simp
      · simp only [List.flatten_cons, List.append_assoc] at hflat ⊢
        rw [hflat]
        simp
      · have harith : st.active.length + ((t, l) :: tl).length = tl.length + K := by
          simp only [List.length_cons]; omega
        rw [harith, Nat.add_mod_right]
        simpa using hmod
    · -- the segment is not yet full: plain append
      rw [hrun, writer_step_entry_no_rotate md K t st l hfull]
      obtain ⟨extra, hseg, hall, hlen, hflat, hmod, hlines⟩ :=
        ih { st with active := st.active ++ [l], lines := st.lines + 1 }
          (by simp [h1]) (by simp; omega)
      refine ⟨extra, by simpa using hseg, hall, ?_, ?_, ?_, hlines⟩
      · have harith : st.active.length + 1 + tl.length
            = st.active.length + ((t, l) :: tl).length := by
          simp only [List.length_cons]; omega
        simpa [harith] using hlen
      · simp only [List.append_assoc] at hflat ⊢
        simpa using hflat
      · have harith : st.active.length + 1 + tl.length
            = st.active.length + ((t, l) :: tl).length := by
          simp only [List.length_cons]; omega
        simpa [harith] using hmod

/-- C5, counterexample: with `max_lines = 3` and seven sequential entries
and no time-based rotation, the writer has rotated 2 segments — not
`ceil(7/3) = 3` as the claim states: the 7th line stays in the active file,
which is not rotated until it fills or a timeout with pending lines fires
(this is the spec's own 7-event scenario). -/
theorem writer_seven_entries_two_rotated_segments :
    (ProofOfPlay.writer_run 60 3 (ProofOfPlay.writer_init 60 0 none)
        [(0, ProofOfPlay.WriterEvent.entry ['a']),
         (0, ProofOfPlay.WriterEvent.entry ['b']),
         (0, ProofOfPlay.WriterEvent.entry ['c']),
         (0, ProofOfPlay.WriterEvent.entry ['d']),
         (0, ProofOfPlay.WriterEvent.entry ['e']),
         (0, ProofOfPlay.WriterEvent.entry ['f']),
         (0, ProofOfPlay.WriterEvent.entry ['g'])]).segments
      = [[['a'], ['b'], ['c']], [['d'], ['e'], ['f']]]
    ∧ (ProofOfPlay.writer_run 60 3 (ProofOfPlay.writer_init 60 0 none)
        [(0, ProofOfPlay.WriterEvent.entry ['a']),
         (0, ProofOfPlay.WriterEvent.entry ['b']),
         (0, ProofOfPlay.WriterEvent.entry ['c']),
         (0, ProofOfPlay.WriterEvent.entry ['d']),
         (0, ProofOfPlay.WriterEvent.entry ['e']),
         (0, ProofOfPlay.WriterEvent.entry ['f']),
         (0, ProofOfPlay.WriterEvent.entry ['g'])]).active = [['g']]
    ∧ (2 : Nat) ≠ (7 + 3 - 1) / 3 := by
  decide

/-- C5, amended: with `max_lines = K` (K ≥ 1) and no time-based rotation, N
sequential `log()` calls leave `floor(N/K)` rotated segments of exactly K
lines each, with the remaining `N mod K` entries in the still-open active
file; concatenating the rotated segments in order followed by the active
file reproduces the entries exactly in call order. -/
theorem writer_rotation_floor_div (K md t0 : Nat) (hK : 1 ≤ K)
    (evs : List (Nat × Line)) (final : ProofOfPlay.WriterState)
    (hfin : final = ProofOfPlay.writer_run md K (ProofOfPlay.writer_init md t0 none)
        (evs.map (fun p => (p.1, ProofOfPlay.WriterEvent.entry p.2)))) :
    final.segments.length = evs.length / K
    ∧ (∀ s ∈ final.segments, s.length = K)
    ∧ final.segments.flatten ++ final.active = evs.map Prod.snd
    ∧ final.active.length = evs.length % K := by
  obtain ⟨extra, hseg, hall, hlen, hflat, hmod, _⟩ :=
    writer_entry_run_invariant K md hK evs (ProofOfPlay.writer_init md t0 none)
      rfl (by simp [ProofOfPlay.writer_init]; omega)
  subst hfin
  have hinit : (ProofOfPlay.writer_init md t0 none).segments = [] := rfl
  rw [hinit] at hseg
  simp only [List.nil_append] at hseg
  have hinita : (ProofOfPlay.writer_init md t0 none).active = [] := rfl
  rw [hinita] at hflat
  simp only [List.nil_append] at hflat
  have hinitl : (ProofOfPlay.writer_init md t0 none).active.length = 0 := rfl
  rw [hinitl] at hlen hmod
  simp only [Nat.zero_add] at hlen hmod
  refine ⟨?_, ?_, ?_, hmod⟩
  · rw [hseg, hlen]
  · intro s hs
    rw [hseg] at hs
    exact hall s hs
  · rw [hseg, hflat]

/-- Witness for the amended C5: the 7-entry, K = 3 run has 2 = 7 / 3 rotated
segments. -/
theorem writer_rotation_floor_div_witness :
    (ProofOfPlay.writer_run 60 3 (ProofOfPlay.writer_init 60 0 none)
        ([(0, ['a']), (1, ['b']), (2, ['c']), (3, ['d']), (4, ['e']),
          (5, ['f']), (6, ['g'])].map
          (fun p => (p.1, ProofOfPlay.WriterEvent.entry p.2)))).segments.length
      = 7 / 3 :=
  (writer_rotation_floor_div 3 60 0 (by decide)
    [(0, ['a']), (1, ['b']), (2, ['c']), (3, ['d']), (4, ['e']),
     (5, ['f']), (6, ['g'])] _ rfl).1

theorem submit_loop_apiError (env : Line → Nat → ProofOfPlay.SubmitRes)
    (qs : Nat) :
    ∀ (files : List ProofOfPlay.SpoolFile) (sel : ProofOfPlay.SpoolFile),
      files.find? (fun f => f.size != 0) = some sel →
      env sel.name qs = .apiError →
      ∃ deleted,
        ProofOfPlay.submit_loop env qs files = (deleted, [sel.name], true)
        ∧ ∀ n ∈ deleted, ∃ f ∈ files, f.name = n ∧ f.size = 0 := by
  intro files
  induction files with
  | nil => intro sel h _; simp at h
  | cons f rest ih =>
    intro sel hfind henv
    by_cases hsz : f.size = 0
    · have hpf : (f.size != 0) = false := by simp [hsz]
      have hfind' : rest.find? (fun f => f.size != 0) = some sel := by
        simpa [List.find?_cons, hpf] using hfind
      obtain ⟨deleted, hloop, hdel⟩ := ih sel hfind' henv
      refine ⟨f.name :: deleted, ?_, ?_⟩
      · simp [ProofOfPlay.submit_loop, hsz, hloop]
      · intro n hn
        rcases List.mem_cons.mp hn with h | h
        · exact ⟨f, by simp, h.symm, hsz⟩
        · obtain ⟨g, hg, hgn, hgs⟩ := hdel n h
          exact ⟨g, by simp [hg], hgn, hgs⟩
    · have hpf : (f.size != 0) = true := by simp [hsz]
      have hself : f = sel := by
        simpa [List.find?_cons, hpf] using hfind
      subst hself
      refine ⟨[], ?_, by simp⟩
      simp [ProofOfPlay.submit_loop, hsz, henv]

theorem submit_loop_success (env : Line → Nat → ProofOfPlay.SubmitRes)
    (qs : Nat) :
    ∀ (files : List ProofOfPlay.SpoolFile) (sel : ProofOfPlay.SpoolFile)
      (d : Bool),
      files.find? (fun f => f.size != 0) = some sel →
      env sel.name qs = .ok d →
      ∃ deleted,
        ProofOfPlay.submit_loop env qs files = (deleted, [sel.name], false)
        ∧ sel.name ∈ deleted := by
  intro files
  induction files with
  | nil => intro sel d h _; simp at h
  | cons f rest ih =>
    intro sel d hfind henv
    by_cases hsz : f.size = 0
    · have hpf : (f.size != 0) = false := by simp [hsz]
      have hfind' : rest.find? (fun f => f.size != 0) = some sel := by
        simpa [List.find?_cons, hpf] using hfind
      obtain ⟨deleted, hloop, hdel⟩ := ih sel d hfind' henv
      exact ⟨f.name :: deleted, by simp [ProofOfPlay.submit_loop, hsz, hloop],
        by simp [hdel]⟩
    · have hpf : (f.size != 0) = true := by simp [hsz]
      have hself : f = sel := by
        simpa [List.find?_cons, hpf] using hfind
      subst hself
      exact ⟨[f.name], by simp [ProofOfPlay.submit_loop, hsz, henv], by simp⟩

open ProofOfPlay in
/-- C8: in a submitter cycle whose selected ready segment (the first
`submit-` file of nonzero size) fails to upload — `_submit` raising
`APIError`, which wraps every network, HTTP and body-parse failure — the
segment file is left on disk for the next cycle and the sleep before the
next scan is the error delay; when its upload succeeds (disabled or not)
the sleep is the configured normal minimum delay and the segment is gone
from the directory. Exactly the one segment is submitted either way. -/
theorem submitter_failure_keeps_segment_error_delay
    (min_delay error_delay : Nat) (env : Line → Nat → SubmitRes)
    (disk : List SpoolFile) (sel : SpoolFile)
    (hnd : (disk.map SpoolFile.name).Nodup)
    (hsel : (disk.filter isReady).find? (fun f => f.size != 0) = some sel) :
    (env sel.name (disk.filter isReady).length = .apiError →
        sel ∈ (submit_cycle min_delay error_delay env disk).disk
        ∧ (submit_cycle min_delay error_delay env disk).delay = error_delay
        ∧ (submit_cycle min_delay error_delay env disk).uploads = [sel.name])
    ∧ (∀ d, env sel.name (disk.filter isReady).length = .ok d →
        (submit_cycle min_delay error_delay env disk).delay = min_delay
        ∧ sel.name ∉ ((submit_cycle min_delay error_delay env disk).disk.map
            SpoolFile.name)
        ∧ (submit_cycle min_delay error_delay env disk).uploads = [sel.name]) := by
  have hselmem : sel ∈ disk.filter isReady := List.mem_of_find?_eq_some hsel
  have hseldisk : sel ∈ disk := (List.mem_filter.mp hselmem).1
  have hselsz : sel.size ≠ 0 := by
    have := List.find?_some hsel
    simpa using this
  have hfilesne : disk.filter isReady ≠ [] := List.ne_nil_of_mem hselmem
  constructor
  · intro henv
    obtain ⟨deleted, hloop, hdel⟩ :=
      submit_loop_apiError env (disk.filter isReady).length
        (disk.filter isReady) sel hsel henv
    have hnotdel : sel.name ∉ deleted := by
      intro hmem
      obtain ⟨g, hg, hgn, hgs⟩ := hdel sel.name hmem
      have hgdisk : g ∈ disk := (List.mem_filter.mp hg).1
      have : g = sel :=
        List.inj_on_of_nodup_map hnd hgdisk hseldisk hgn
      exact hselsz (this ▸ hgs)
    refine ⟨?_, ?_, ?_⟩
    · simp only [ProofOfPlay.submit_cycle, hloop]
      exact List.mem_filter.mpr ⟨hseldisk, by simpa using hnotdel⟩
    · simp [ProofOfPlay.submit_cycle, hloop]
    · simp [ProofOfPlay.submit_cycle, hloop]
  · intro d henv
    obtain ⟨deleted, hloop, hdel⟩ :=
      submit_loop_success env (disk.filter isReady).length
        (disk.filter isReady) sel d hsel henv
    refine ⟨?_, ?_, ?_⟩
    · simp [ProofOfPlay.submit_cycle, hloop, hfilesne]
    · simp only [ProofOfPlay.submit_cycle, hloop]
      intro hmem
      simp only [List.mem_map] at hmem
      obtain ⟨g, hg, hgn⟩ := hmem
      have := (List.mem_filter.mp hg).2
      rw [hgn] at this
      simp [hdel] at this
    · simp [ProofOfPlay.submit_cycle, hloop]

open ProofOfPlay in
/-- Witness for C8 at a concrete directory: `submit-aa.log` (3 bytes) next
to the active `current.log`; a failing upload keeps the segment on disk with
the error delay of 60, a succeeding upload uses the normal delay of 1800. -/
theorem submitter_failure_keeps_segment_error_delay_witness :
    ((⟨("submit-aa.log".toList), 3⟩ : SpoolFile) ∈
        (submit_cycle 1800 60 (fun _ _ => .apiError)
          [⟨("current.log".toList), 5⟩, ⟨("submit-aa.log".toList), 3⟩]).disk
      ∧ (submit_cycle 1800 60 (fun _ _ => .apiError)
          [⟨("current.log".toList), 5⟩, ⟨("submit-aa.log".toList), 3⟩]).delay = 60)
    ∧ (submit_cycle 1800 60 (fun _ _ => .ok false)
        [⟨("current.log".toList), 5⟩, ⟨("submit-aa.log".toList), 3⟩]).delay = 1800 :=
  ⟨⟨((submitter_failure_keeps_segment_error_delay 1800 60 (fun _ _ => .apiError)
        [⟨("current.log".toList), 5⟩, ⟨("submit-aa.log".toList), 3⟩]
        ⟨("submit-aa.log".toList), 3⟩ (by decide) (by decide)).1 rfl).1,
    ((submitter_failure_keeps_segment_error_delay 1800 60 (fun _ _ => .apiError)
        [⟨("current.log".toList), 5⟩, ⟨("submit-aa.log".toList), 3⟩]
        ⟨("submit-aa.log".toList), 3⟩ (by decide) (by decide)).1 rfl).2.1⟩,
   ((submitter_failure_keeps_segment_error_delay 1800 60 (fun _ _ => .ok false)
        [⟨("current.log".toList), 5⟩, ⟨("submit-aa.log".toList), 3⟩]
        ⟨("submit-aa.log".toList), 3⟩ (by decide) (by decide)).2 false rfl).1⟩
